import Mathlib

/-!
Verification of the typeswift audio pipeline and output-injection subsystem.

This file gives a shallow embedding, in Lean 4, of the core components of the
typeswift repository (`src/app/src`): the SPSC ring-buffer audio transfer and
capture pipeline (`services/audio.rs`, `AudioCapture`), the transcription
session wrapper (`services/audio.rs`, `Transcriber`), the orchestration layer
(`services/audio.rs`, `AudioProcessor`), the typing worker (`output.rs`,
`TypingQueue`), and the recording state machine (`state.rs`,
`AppStateManager`) together with the controller's guarded event handling
(`controller.rs`, `AppController::handle_event`).

Audio samples (Rust `f32`) are modelled as rationals `ℚ` with exact
arithmetic; machine counters as `ℕ`. Fallible operations return `Except`.
Effects relevant to the specification (log entries, listener notification,
engine invocations, worker sleeps) are made explicit as components of each
operation's result.
-/

namespace Typeswift

/-- Error kinds from `src/app/src/error.rs` (`VoicyError`). -/
inductive VoicyError where
  | AudioInitFailed (msg : String)
  | ModelLoadFailed (msg : String)
  | TranscriptionFailed (msg : String)
  | HotkeyRegistrationFailed (msg : String)
  | WindowOperationFailed (msg : String)
  | ConfigLoadFailed (msg : String)
deriving DecidableEq

/-! ### Audio capture: ring buffer, device callback, reader
From `src/app/src/services/audio.rs` lines 44-234. -/

/-- State of the capture pipeline: the SPSC ring buffer (`HeapRb<f32>` of
capacity `target_sample_rate * 30`, modelled as a FIFO list bounded by
`capacity`), the shared `is_recording` flag, and the producer-side overflow
counter (`overflow_count` in the device callback closure). -/
structure CapState where
  queue : List ℚ
  capacity : ℕ
  recording : Bool
  overflow : ℕ
deriving DecidableEq

/-- Models `AudioCapture::new(target_sample_rate)` (lines 44-207): the ring buffer is
created with `target_sample_rate * 30` slots (30 seconds), recording off,
no overflow. Device/stream setup failures are handled separately in
`AudioCapture.tryNew`. -/
def AudioCapture.new (target_sample_rate : ℕ) : CapState :=
  { queue := [], capacity := target_sample_rate * 30, recording := false, overflow := 0 }

/-- Models `Producer::try_push` on the ring buffer, as used by the device callback
(lines 145-153 and 159-168): if the buffer is full the sample is dropped and
`overflow_count` is incremented; otherwise it is appended. Never blocks. -/
def tryPush (s : CapState) (x : ℚ) : CapState :=
  if s.queue.length < s.capacity then { s with queue := s.queue ++ [x] }
  else { s with overflow := s.overflow + 1 }

/-- The device callback, direct-copy branch (mono device, device rate equal to
the target rate; lines 119-170 with `resampler = None` and `channels = 1`):
if `is_recording` is false the data is ignored; otherwise every sample is
`try_push`ed in order, counting drops. -/
def deviceCallback (s : CapState) (data : List ℚ) : CapState :=
  if s.recording then data.foldl tryPush s else s

/-- Models `AudioCapture::start_recording` (lines 209-213): sets the shared flag. -/
def startRecording (s : CapState) : CapState := { s with recording := true }

/-- Models `AudioCapture::stop_recording` (lines 215-219): clears the shared flag. -/
def stopRecording (s : CapState) : CapState := { s with recording := false }

/-- Models `AudioCapture::read_audio(max_samples)` (lines 221-234): pops samples until
`max_samples` are collected or the buffer is empty; returns the samples read
and the remaining buffer state. Never blocks. -/
def readAudio (s : CapState) (maxSamples : ℕ) : List ℚ × CapState :=
  (s.queue.take maxSamples, { s with queue := s.queue.drop maxSamples })

/-- Net effect of folding `try_push` over a batch: the queue becomes the first
`capacity` samples of `queue ++ data` and every sample beyond that is dropped
and counted in `overflow`. -/
theorem foldl_tryPush_spec (data : List ℚ) :
    ∀ s : CapState, s.queue.length ≤ s.capacity →
      (data.foldl tryPush s).queue = (s.queue ++ data).take s.capacity ∧
      (data.foldl tryPush s).overflow
        = s.overflow + (s.queue.length + data.length - s.capacity) ∧
      (data.foldl tryPush s).capacity = s.capacity ∧
      (data.foldl tryPush s).recording = s.recording := by
  induction data with
  | nil =>
      intro s h
      refine ⟨?_, ?_, rfl, rfl⟩
      · simp [List.take_of_length_le h]
      · simp only [List.foldl_nil, List.length_nil]
        omega
  | cons x rest ih =>
      intro s h
      simp only [List.foldl_cons]
      by_cases hlt : s.queue.length < s.capacity
      · have h' : ({ s with queue := s.queue ++ [x] } : CapState).queue.length
            ≤ ({ s with queue := s.queue ++ [x] } : CapState).capacity := by
          simp; omega
        obtain ⟨hq, ho, hc, hr⟩ := ih { s with queue := s.queue ++ [x] } h'
        rw [tryPush, if_pos hlt]
        refine ⟨?_, ?_, hc, hr⟩
        · rw [hq]; simp
        · rw [ho]; simp; omega
      · have hq : s.queue.length = s.capacity := le_antisymm h (not_lt.1 hlt)
        have h' : ({ s with overflow := s.overflow + 1 } : CapState).queue.length
            ≤ ({ s with overflow := s.overflow + 1 } : CapState).capacity := h
        obtain ⟨hq2, ho, hc, hr⟩ := ih { s with overflow := s.overflow + 1 } h'
        rw [tryPush, if_neg hlt]
        refine ⟨?_, ?_, hc, hr⟩
        · rw [hq2]
          have h1 : (s.queue ++ rest).take s.capacity = s.queue := by
            rw [← hq]; exact List.take_left s.queue rest
          have h2 : (s.queue ++ x :: rest).take s.capacity = s.queue := by
            rw [← hq]; exact List.take_left s.queue (x :: rest)
          simp only [h1, h2]
        · rw [ho]; simp; omega

/-- Specification of the direct-copy device callback while recording. -/
theorem deviceCallback_spec (s : CapState) (data : List ℚ)
    (hrec : s.recording = true) (hlen : s.queue.length ≤ s.capacity) :
    (deviceCallback s data).queue = (s.queue ++ data).take s.capacity ∧
    (deviceCallback s data).overflow
      = s.overflow + (s.queue.length + data.length - s.capacity) ∧
    (deviceCallback s data).capacity = s.capacity ∧
    (deviceCallback s data).recording = s.recording := by
  rw [deviceCallback, if_pos hrec]
  exact foldl_tryPush_spec data s hlen

/-- C1: the ring buffer has capacity `target_sample_rate * 30`; a push onto a
full buffer never blocks: the sample is dropped and the overflow counter is
incremented. After starting to record on a fresh capture and pushing more
samples than the capacity, draining via `read_audio` until empty yields
exactly `capacity` samples (the time-ordered prefix of what was pushed, not
the pushed total), the buffer is left empty, and the overflow counter is
positive. -/
theorem ring_overflow_drop_policy (rate : ℕ) (data : List ℚ)
    (h : rate * 30 < data.length) :
    ((readAudio (deviceCallback (startRecording (AudioCapture.new rate)) data)
        data.length).1).length = rate * 30 ∧
    (readAudio (deviceCallback (startRecording (AudioCapture.new rate)) data)
        data.length).1 = data.take (rate * 30) ∧
    0 < (deviceCallback (startRecording (AudioCapture.new rate)) data).overflow ∧
    (readAudio (deviceCallback (startRecording (AudioCapture.new rate)) data)
        data.length).2.queue = [] := by
  set s0 := startRecording (AudioCapture.new rate) with hs0
  have hrec : s0.recording = true := rfl
  have hlen : s0.queue.length ≤ s0.capacity := by
    simp [hs0, startRecording, AudioCapture.new]
  obtain ⟨hq, ho, hc, hr⟩ := deviceCallback_spec s0 data hrec hlen
  have hq' : (deviceCallback s0 data).queue = data.take (rate * 30) := by
    rw [hq]; simp [hs0, startRecording, AudioCapture.new]
  have hlentake : (data.take (rate * 30)).length = rate * 30 := by
    rw [List.length_take]; omega
  refine ⟨?_, ?_, ?_, ?_⟩
  · rw [readAudio]
    simp only [hq']
    rw [List.take_of_length_le (by omega : (data.take (rate * 30)).length ≤ data.length)]
    exact hlentake
  · rw [readAudio]
    simp only [hq']
    rw [List.take_of_length_le (by omega : (data.take (rate * 30)).length ≤ data.length)]
  · rw [ho]
    simp [hs0, startRecording, AudioCapture.new]
    omega
  · rw [readAudio]
    simp only [hq']
    exact List.drop_of_length_le (by omega)

/-- Witness for C1 at a concrete input: rate 1 (capacity 30), 31 pushed
samples. -/
theorem ring_overflow_drop_policy_witness :
    1 * 30 < (List.replicate 31 (0 : ℚ)).length ∧
    ((readAudio
        (deviceCallback (startRecording (AudioCapture.new 1)) (List.replicate 31 (0 : ℚ)))
        (List.replicate 31 (0 : ℚ)).length).1).length = 1 * 30 :=
  ⟨by simp, (ring_overflow_drop_policy 1 (List.replicate 31 (0 : ℚ)) (by simp)).1⟩

/-- C5: when the device rate equals the target rate, the capture pipeline
takes the direct-copy path, so absent overflow drops the samples returned by
`read_audio` are bit-identical to the samples pushed by the device callback;
in particular, pushing 16000 samples of value 0.5 into a freshly started
16000 Hz capture and calling `read_audio 20000` returns exactly those 16000
samples. -/
theorem direct_copy_bit_identical :
    (∀ (s : CapState) (data : List ℚ) (k : ℕ), s.recording = true → s.queue = [] →
        data.length ≤ s.capacity →
        (deviceCallback s data).queue = data ∧
        (readAudio (deviceCallback s data) k).1 = data.take k) ∧
    (readAudio (deviceCallback (startRecording (AudioCapture.new 16000))
        (List.replicate 16000 ((1 : ℚ)/2))) 20000).1
      = List.replicate 16000 ((1 : ℚ)/2) ∧
    ((readAudio (deviceCallback (startRecording (AudioCapture.new 16000))
        (List.replicate 16000 ((1 : ℚ)/2))) 20000).1).length = 16000 := by
  have main : ∀ (s : CapState) (data : List ℚ) (k : ℕ), s.recording = true →
      s.queue = [] → data.length ≤ s.capacity →
      (deviceCallback s data).queue = data ∧
      (readAudio (deviceCallback s data) k).1 = data.take k := by
    intro s data k hrec hq hlen
    obtain ⟨hqeq, _, _, _⟩ := deviceCallback_spec s data hrec (by rw [hq]; simp)
    have hqueue : (deviceCallback s data).queue = data := by
      rw [hqeq, hq, List.nil_append, List.take_of_length_le hlen]
    exact ⟨hqueue, by rw [readAudio]; simp only [hqueue]⟩
  have hcap : (List.replicate 16000 ((1 : ℚ)/2)).length
      ≤ (startRecording (AudioCapture.new 16000)).capacity := by
    rw [List.length_replicate]
    show 16000 ≤ 16000 * 30
    omega
  have hk : (List.replicate 16000 ((1 : ℚ)/2)).length ≤ 20000 := by
    rw [List.length_replicate]; omega
  have h := (main (startRecording (AudioCapture.new 16000))
      (List.replicate 16000 ((1 : ℚ)/2)) 20000 rfl rfl hcap).2
  refine ⟨main, ?_, ?_⟩
  · rw [h, List.take_of_length_le hk]
  · rw [h, List.take_of_length_le hk, List.length_replicate]

/-- Witness for C5's universally quantified part: a one-sample push on a
fresh recording capture at rate 1 comes back unchanged. -/
theorem direct_copy_bit_identical_witness :
    (deviceCallback (startRecording (AudioCapture.new 1)) [(1 : ℚ)/2]).queue
      = [(1 : ℚ)/2] :=
  (direct_copy_bit_identical.1 (startRecording (AudioCapture.new 1))
    [(1 : ℚ)/2] 1 rfl rfl (by simp [startRecording, AudioCapture.new])).1

/-! ### Recording state machine and controller guards
From `src/app/src/state.rs` and `src/app/src/controller.rs`. -/

/-- Models `RecordingState` from `src/app/src/state.rs` lines 5-10. -/
inductive RecordingState where
  | Idle
  | Recording
  | Processing
deriving DecidableEq

/-- Models `AppStateManager::can_start_recording` (state.rs lines 95-98): true iff
the current recording state is `Idle`. -/
def can_start_recording (s : RecordingState) : Bool := s == RecordingState.Idle

/-- Models `AppStateManager::can_stop_recording` (state.rs lines 100-103): true iff
the current recording state is `Recording`. -/
def can_stop_recording (s : RecordingState) : Bool := s == RecordingState.Recording

/-- Models `HotkeyEvent` from `src/app/src/input.rs` lines 13-17. -/
inductive HotkeyEvent where
  | PushToTalkPressed
  | PushToTalkReleased
  | ToggleWindow
deriving DecidableEq

/-- The sequence of states written through `set_recording_state` by
`AppController::handle_event` (controller.rs lines 112-205): a press in a
state satisfying `can_start_recording` writes `Recording`; a release in a
state satisfying `can_stop_recording` writes `Processing` and then, after
stopping and typing, `Idle`; guarded-out events and `ToggleWindow` write
nothing. -/
def handleEventStates (s : RecordingState) (e : HotkeyEvent) : List RecordingState :=
  match e with
  | .PushToTalkPressed =>
      if can_start_recording s then [RecordingState.Recording] else []
  | .PushToTalkReleased =>
      if can_stop_recording s then [RecordingState.Processing, RecordingState.Idle] else []
  | .ToggleWindow => []

/-- The three transitions the specification allows. -/
def allowedTransition (a b : RecordingState) : Bool :=
  (a == RecordingState.Idle && b == RecordingState.Recording)
    || (a == RecordingState.Recording && b == RecordingState.Processing)
    || (a == RecordingState.Processing && b == RecordingState.Idle)

/-- C2: for every state and every controller event, each transition that takes
effect is one of Idle→Recording, Recording→Processing, Processing→Idle; the
guards hold exactly in Idle resp. Recording; and an attempted transition whose
guard fails (for example Processing→Recording via a press in `Processing`)
writes nothing, leaving the state unchanged. -/
theorem state_machine_guarded_transitions (s : RecordingState) (e : HotkeyEvent) :
    List.Chain' (fun a b => allowedTransition a b = true) (s :: handleEventStates s e) ∧
    (can_start_recording s = true ↔ s = RecordingState.Idle) ∧
    (can_stop_recording s = true ↔ s = RecordingState.Recording) ∧
    (can_start_recording s = false →
      handleEventStates s HotkeyEvent.PushToTalkPressed = []) ∧
    (can_stop_recording s = false →
      handleEventStates s HotkeyEvent.PushToTalkReleased = []) ∧
    handleEventStates RecordingState.Processing HotkeyEvent.PushToTalkPressed = [] := by
  cases s <;> cases e <;>
    simp [handleEventStates, can_start_recording, can_stop_recording, allowedTransition]

/-- Witness for C2: a press while `Processing` is rejected and writes no
state. -/
theorem state_machine_guarded_transitions_witness :
    can_start_recording RecordingState.Processing = false ∧
    handleEventStates RecordingState.Processing HotkeyEvent.PushToTalkPressed = [] :=
  ⟨by decide,
    (state_machine_guarded_transitions RecordingState.Processing
      HotkeyEvent.PushToTalkPressed).2.2.2.1 (by decide)⟩

/-- Observable state container `AppStateManager` (state.rs lines 12-30),
restricted to the fields `set_recording_state` touches: the recording state
and the registered listeners (listener callbacks are modelled abstractly by a
type `L`; invoking one is recorded in the call's result). -/
structure AppStateManager (L : Type) where
  recording_state : RecordingState
  listeners : List L
deriving DecidableEq

/-- Result of one `set_recording_state` call: the manager afterwards, the
transition log entries printed, and the listeners invoked (in registration
order, synchronously within the call) before it returns. -/
structure SetStateResult (L : Type) where
  manager : AppStateManager L
  logged : List (RecordingState × RecordingState)
  notified : List L
deriving DecidableEq

/-- Models `AppStateManager::set_recording_state` (state.rs lines 36-43): reads the
old state; only when it differs from the new one does it log the transition,
write the new state, and call `notify_listeners` (lines 89-93), which invokes
every registered listener in order. -/
def set_recording_state {L : Type} (m : AppStateManager L) (state : RecordingState) :
    SetStateResult L :=
  if m.recording_state ≠ state then
    { manager := { m with recording_state := state },
      logged := [(m.recording_state, state)],
      notified := m.listeners }
  else
    { manager := m, logged := [], notified := [] }

/-- Counterexample to C8 as stated: a call with the current state
(`Idle → Idle`) on a manager with one registered listener notifies no
listener and logs nothing, so not every call to `set_recording_state`
notifies all registered listeners. -/
theorem set_recording_state_same_state_counterexample :
    (set_recording_state (AppStateManager.mk RecordingState.Idle [0]) RecordingState.Idle).notified
        ≠ (AppStateManager.mk RecordingState.Idle ([0] : List ℕ)).listeners ∧
    (set_recording_state (AppStateManager.mk RecordingState.Idle ([0] : List ℕ))
        RecordingState.Idle).logged = [] := by
  constructor
  · intro h
    simp [set_recording_state] at h
  · simp [set_recording_state]

/-- C8 (amended): every call to `set_recording_state` with a state different
from the current one logs exactly that transition, writes the new state, and
invokes all registered listeners in order before returning; a call with the
current state changes nothing, logs nothing and notifies nobody. -/
theorem set_recording_state_logs_and_notifies {L : Type}
    (m : AppStateManager L) (state : RecordingState) :
    (m.recording_state ≠ state →
      set_recording_state m state =
        { manager := { m with recording_state := state },
          logged := [(m.recording_state, state)],
          notified := m.listeners }) ∧
    (m.recording_state = state →
      set_recording_state m state = { manager := m, logged := [], notified := [] }) := by
  constructor
  · intro h
    rw [set_recording_state, if_pos h]
  · intro h
    rw [set_recording_state, if_neg (by simp [h])]

/-- Witness for C8 (amended) at a concrete state-changing call. -/
theorem set_recording_state_logs_and_notifies_witness :
    RecordingState.Idle ≠ RecordingState.Recording ∧
    set_recording_state (AppStateManager.mk RecordingState.Idle ([5] : List ℕ))
        RecordingState.Recording =
      { manager := AppStateManager.mk RecordingState.Recording [5],
        logged := [(RecordingState.Idle, RecordingState.Recording)],
        notified := [5] } :=
  ⟨by decide,
    (set_recording_state_logs_and_notifies
      (AppStateManager.mk RecordingState.Idle ([5] : List ℕ))
      RecordingState.Recording).1 (by decide)⟩

/-! ### Transcriber session wrapper
From `src/app/src/services/audio.rs` lines 291-378. -/

/-- Models `Transcriber` (services/audio.rs lines 291-296), restricted to the fields
the session operations touch: the engine sample rate (fixed at 16000 by
`Transcriber::new`, line 314) and the accumulation buffer. -/
structure Transcriber where
  sample_rate : ℕ
  audio_buffer : List ℚ
deriving DecidableEq

/-- Peak absolute amplitude of a batch:
`audio.iter().copied().map(f32::abs).fold(0.0, f32::max)`
(services/audio.rs line 336). -/
def peakAmp (audio : List ℚ) : ℚ :=
  audio.foldl (fun m x => max m |x|) 0

/-- Models `Transcriber::start_session` (lines 327-331): clears the accumulation
buffer. -/
def Transcriber.start_session (t : Transcriber) : Transcriber :=
  { t with audio_buffer := [] }

/-- Models `Transcriber::process_audio` (lines 333-347): computes the batch's peak
absolute amplitude; if it exceeds 1.5, appends every sample multiplied by
`0.99 / peak`, otherwise appends the batch unchanged. -/
def Transcriber.process_audio (t : Transcriber) (audio : List ℚ) : Transcriber :=
  let max_amp := peakAmp audio
  if 3/2 < max_amp then
    { t with audio_buffer :=
        t.audio_buffer ++ audio.map (fun x => x * (99/100 / max_amp)) }
  else
    { t with audio_buffer := t.audio_buffer ++ audio }

theorem le_foldl_max (audio : List ℚ) :
    ∀ m : ℚ, m ≤ audio.foldl (fun a x => max a |x|) m := by
  induction audio with
  | nil => intro m; simp
  | cons x rest ih =>
      intro m
      simp only [List.foldl_cons]
      exact le_trans (le_max_left m |x|) (ih (max m |x|))

theorem peakAmp_nonneg (audio : List ℚ) : 0 ≤ peakAmp audio :=
  le_foldl_max audio 0

theorem foldl_max_map_mul (c : ℚ) (hc : 0 ≤ c) (audio : List ℚ) :
    ∀ m : ℚ, (audio.map (fun x => x * c)).foldl (fun a x => max a |x|) (m * c)
      = (audio.foldl (fun a x => max a |x|) m) * c := by
  induction audio with
  | nil => intro m; simp
  | cons x rest ih =>
      intro m
      simp only [List.map_cons, List.foldl_cons]
      rw [abs_mul, abs_of_nonneg hc, ← max_mul_of_nonneg m |x| hc, ih]

/-- Scaling every sample by a nonnegative constant scales the peak by it. -/
theorem peakAmp_map_mul (c : ℚ) (hc : 0 ≤ c) (audio : List ℚ) :
    peakAmp (audio.map (fun x => x * c)) = peakAmp audio * c := by
  have h := foldl_max_map_mul c hc audio 0
  rw [zero_mul] at h
  exact h

/-- C3: for every batch given to `Transcriber::process_audio`, if the batch's
peak absolute amplitude exceeds 1.5, every sample is multiplied by
`0.99 / peak` before being appended (so the appended batch's new peak is
exactly 0.99, the relative shape being preserved since all samples share one
positive factor); otherwise the batch is appended unchanged. -/
theorem process_audio_normalization (t : Transcriber) (audio : List ℚ) :
    (3/2 < peakAmp audio →
      (t.process_audio audio).audio_buffer
          = t.audio_buffer ++ audio.map (fun x => x * (99/100 / peakAmp audio)) ∧
      peakAmp (audio.map (fun x => x * (99/100 / peakAmp audio))) = 99/100 ∧
      0 < 99/100 / peakAmp audio) ∧
    (peakAmp audio ≤ 3/2 →
      (t.process_audio audio).audio_buffer = t.audio_buffer ++ audio) := by
  constructor
  · intro h
    have hpos : 0 < peakAmp audio := lt_trans (by norm_num) h
    have hscale : (0 : ℚ) < 99/100 / peakAmp audio := by positivity
    refine ⟨?_, ?_, hscale⟩
    · rw [Transcriber.process_audio]
      simp only [if_pos h]
    · rw [peakAmp_map_mul _ (le_of_lt hscale)]
      field_simp
      ring
  · intro h
    rw [Transcriber.process_audio]
    simp only [if_neg (not_lt.2 h)]

/-- Witness for C3 at a concrete batch of peak 2: it is rescaled so that its
peak is 0.99. -/
theorem process_audio_normalization_witness :
    (3 : ℚ)/2 < peakAmp [2, -1] ∧
    peakAmp ([2, -1].map (fun x => x * (99/100 / peakAmp [2, -1]))) = 99/100 := by
  have hpk : peakAmp [(2 : ℚ), -1] = 2 := by
    simp [peakAmp]
  have hlt : (3 : ℚ)/2 < peakAmp [2, -1] := by rw [hpk]; norm_num
  exact ⟨hlt,
    ((process_audio_normalization (Transcriber.mk 16000 []) [2, -1]).1 hlt).2.1⟩

/-- Result of one `Transcriber::end_session` call (services/audio.rs lines
349-373): the returned value, the accumulation buffer afterwards (`mem::take`
leaves it empty in every branch), and whether the external engine's
`transcribe` operation was invoked. -/
structure EndSessionResult where
  result : Except VoicyError String
  buffer : List ℚ
  engineCalled : Bool

/-- Models `Transcriber::end_session` (lines 349-373): moves the accumulated audio
out of the buffer; if it is empty, returns the empty string without calling
the engine; otherwise submits it to the external `transcribe` (modelled as a
parameter), wrapping an engine error in `TranscriptionFailed` and returning
the trimmed text on success. -/
def Transcriber.end_session (t : Transcriber)
    (transcribe : List ℚ → Except String String) : EndSessionResult :=
  let audio := t.audio_buffer
  if audio.isEmpty then
    { result := .ok "", buffer := [], engineCalled := false }
  else
    match transcribe audio with
    | .error e =>
        { result := .error (.TranscriptionFailed ("Swift transcription failed: " ++ e)),
          buffer := [], engineCalled := true }
    | .ok text =>
        { result := .ok text.trim, buffer := [], engineCalled := true }

/-- C10: `end_session` removes the accumulated audio before calling the
engine, so the buffer is left empty whether transcription succeeds or fails;
an immediately following `end_session` (on the transcriber carrying that
emptied buffer) returns the empty string without invoking the engine. -/
theorem end_session_clears_buffer (t : Transcriber)
    (transcribe transcribe2 : List ℚ → Except String String) :
    (t.end_session transcribe).buffer = [] ∧
    ({ t with audio_buffer := (t.end_session transcribe).buffer } : Transcriber).end_session
        transcribe2
      = { result := .ok "", buffer := [], engineCalled := false } := by
  have h1 : (t.end_session transcribe).buffer = [] := by
    rw [Transcriber.end_session]
    split
    · rfl
    · split <;> rfl
  refine ⟨h1, ?_⟩
  rw [h1]
  rfl

/-! ### AudioProcessor orchestration
From `src/app/src/services/audio.rs` lines 392-455. -/

/-- Models `AudioProcessor` (lines 392-397): optional capture and transcriber (unset
until initialization succeeds) and the local drain buffer. -/
structure AudioProcessor where
  audio_capture : Option CapState
  transcriber : Option Transcriber
  audio_buffer : List ℚ

/-- Models `AudioProcessor::new` (lines 400-404): both components unset. -/
def AudioProcessor.new : AudioProcessor :=
  { audio_capture := none, transcriber := none, audio_buffer := [] }

/-- The drain loop of `AudioProcessor::stop_recording` (lines 432-438):
repeatedly `read_audio(8000)` until a read comes back empty, accumulating the
chunks. -/
def drainLoop (cap : CapState) (acc : List ℚ) : List ℚ × CapState :=
  if h : cap.queue = [] then (acc, cap)
  else
    let r := readAudio cap 8000
    drainLoop r.2 (acc ++ r.1)
termination_by cap.queue.length
decreasing_by
  simp only [readAudio, List.length_drop]
  have hpos : 0 < cap.queue.length := List.length_pos.2 h
  omega

theorem capState_queue_eta (cap : CapState) (h : cap.queue = []) :
    ({ cap with queue := [] } : CapState) = cap := by
  cases cap
  simp_all

/-- The drain loop returns all buffered samples in order and empties the
buffer. -/
theorem drainLoop_spec :
    ∀ (n : ℕ) (cap : CapState), cap.queue.length ≤ n → ∀ acc : List ℚ,
      drainLoop cap acc = (acc ++ cap.queue, { cap with queue := [] }) := by
  intro n
  induction n with
  | zero =>
      intro cap h acc
      have hq : cap.queue = [] := List.length_eq_zero.1 (Nat.le_zero.1 h)
      rw [drainLoop, dif_pos hq, hq, List.append_nil, capState_queue_eta cap hq]
  | succ n ih =>
      intro cap h acc
      by_cases hq : cap.queue = []
      · rw [drainLoop, dif_pos hq, hq, List.append_nil, capState_queue_eta cap hq]
      · rw [drainLoop, dif_neg hq]
        have hlen : ((readAudio cap 8000).2).queue.length ≤ n := by
          simp only [readAudio, List.length_drop]
          have hpos : 0 < cap.queue.length := List.length_pos.2 hq
          omega
        rw [ih (readAudio cap 8000).2 hlen]
        simp only [readAudio, List.append_assoc, List.take_append_drop]

/-- Models `AudioProcessor::stop_recording` (lines 428-454), batch mode: stop the
capture, drain all remaining buffered audio in 8000-sample chunks, and — if
any audio was drained and a transcriber is present — run one
start→process→end session cycle, returning the trimmed final text. The
external engine is a parameter; the Bool records whether it was invoked. -/
def AudioProcessor.stop_recording (p : AudioProcessor)
    (transcribe : List ℚ → Except String String) :
    Except VoicyError String × AudioProcessor × Bool :=
  match p.audio_capture with
  | none => (.ok "", p, false)
  | some cap =>
      let dr := drainLoop (stopRecording cap) []
      let p1 : AudioProcessor :=
        { p with audio_capture := some dr.2, audio_buffer := dr.1 }
      if dr.1 = [] then (.ok "", p1, false)
      else
        match p.transcriber with
        | none => (.ok "", p1, false)
        | some t =>
            let t2 := (t.start_session).process_audio dr.1
            let r := t2.end_session transcribe
            let p2 : AudioProcessor :=
              { p1 with transcriber := some { t2 with audio_buffer := r.buffer } }
            match r.result with
            | .error e => (.error e, p2, r.engineCalled)
            | .ok text => (.ok text.trim, p2, r.engineCalled)

/-- C6: `stop_recording` in batch mode with zero captured samples returns
`Ok ""` without invoking the engine; `end_session` on an empty accumulation
buffer returns the empty string without invoking the engine, and on a
non-empty buffer submits it and returns the trimmed transcription text. -/
theorem stop_recording_empty_no_engine :
    (∀ (p : AudioProcessor) (cap : CapState)
        (transcribe : List ℚ → Except String String),
        p.audio_capture = some cap → cap.queue = [] →
        (p.stop_recording transcribe).1 = .ok "" ∧
        (p.stop_recording transcribe).2.2 = false) ∧
    (∀ (t : Transcriber) (engine : List ℚ → Except String String),
        t.audio_buffer = [] →
        t.end_session engine
          = { result := .ok "", buffer := [], engineCalled := false }) ∧
    (∀ (t : Transcriber) (engine : List ℚ → Except String String) (text : String),
        t.audio_buffer ≠ [] → engine t.audio_buffer = .ok text →
        t.end_session engine
          = { result := .ok text.trim, buffer := [], engineCalled := true }) := by
  refine ⟨?_, ?_, ?_⟩
  · intro p cap transcribe hcap hq
    have hdr : drainLoop (stopRecording cap) []
        = ([] ++ (stopRecording cap).queue,
           { stopRecording cap with queue := [] }) :=
      drainLoop_spec (stopRecording cap).queue.length (stopRecording cap) le_rfl []
    have hq' : (stopRecording cap).queue = [] := hq
    rw [hq', List.append_nil] at hdr
    simp only [AudioProcessor.stop_recording, hcap, hdr, if_pos rfl]
    exact ⟨rfl, rfl⟩
  · intro t engine h
    rw [Transcriber.end_session]
    simp only [h, List.isEmpty_nil, if_pos]
  · intro t engine text h hok
    rw [Transcriber.end_session]
    simp only [List.isEmpty_eq_true]
    rw [if_neg h, hok]

/-- Witness for C6 at a concrete processor with an initialized, empty
capture. -/
theorem stop_recording_empty_no_engine_witness :
    ((AudioProcessor.mk (some (AudioCapture.new 1)) none []).stop_recording
        (fun _ => .ok "hello")).1 = .ok "" ∧
    ((AudioProcessor.mk (some (AudioCapture.new 1)) none []).stop_recording
        (fun _ => .ok "hello")).2.2 = false :=
  stop_recording_empty_no_engine.1 (AudioProcessor.mk (some (AudioCapture.new 1)) none [])
    (AudioCapture.new 1) (fun _ => .ok "hello") rfl rfl

/-- Models `Transcriber::new` (lines 299-325): initializes the external engine (its
outcome is the parameter); on failure, wraps the message in `ModelLoadFailed`;
on success, the engine works at the fixed 16 kHz rate with an empty buffer. -/
def Transcriber.new (initResult : Except String Unit) : Except VoicyError Transcriber :=
  match initResult with
  | .error e => .error (.ModelLoadFailed ("Swift transcriber init failed: " ++ e))
  | .ok _ => .ok { sample_rate := 16000, audio_buffer := [] }

/-- Models `AudioCapture::new` seen as a fallible constructor (lines 44-207): device
or stream setup failures (reported over the readiness channel) become
`AudioInitFailed`; on success the capture starts with the fresh ring-buffer
state of the given target rate. -/
def AudioCapture.tryNew (deviceSetup : Except String Unit) (target_sample_rate : ℕ) :
    Except VoicyError CapState :=
  match deviceSetup with
  | .error e => .error (.AudioInitFailed e)
  | .ok _ => .ok (AudioCapture.new target_sample_rate)

/-- Models `AudioProcessor::initialize` (lines 406-414), named `setup` here:
construct the `Transcriber` first, then the `AudioCapture` at the
transcriber's required sample rate; only when both succeed are the
processor's fields assigned. -/
def AudioProcessor.setup (p : AudioProcessor)
    (swiftInit deviceSetup : Except String Unit) :
    Except VoicyError Unit × AudioProcessor :=
  match Transcriber.new swiftInit with
  | .error e => (.error e, p)
  | .ok t =>
      match AudioCapture.tryNew deviceSetup t.sample_rate with
      | .error e => (.error e, p)
      | .ok c => (.ok (), { p with transcriber := some t, audio_capture := some c })

/-- C7: `initialize` constructs the Transcriber first and then the
AudioCapture at the transcriber's required sample rate (16000); if either
construction fails, the call returns that error and the processor state is
unchanged (both fields remain as they were). -/
theorem processor_setup_failure_unchanged (p : AudioProcessor)
    (swiftInit deviceSetup : Except String Unit) :
    (∀ e, swiftInit = .error e →
        p.setup swiftInit deviceSetup
          = (.error (.ModelLoadFailed ("Swift transcriber init failed: " ++ e)), p)) ∧
    (∀ e, swiftInit = .ok () → deviceSetup = .error e →
        p.setup swiftInit deviceSetup = (.error (.AudioInitFailed e), p)) ∧
    (swiftInit = .ok () → deviceSetup = .ok () →
        p.setup swiftInit deviceSetup
          = (.ok (), { p with
                         transcriber := some (Transcriber.mk 16000 []),
                         audio_capture := some (AudioCapture.new 16000) })) := by
  refine ⟨?_, ?_, ?_⟩
  · intro e h
    rw [h]
    rfl
  · intro e h1 h2
    rw [h1, h2]
    rfl
  · intro h1 h2
    rw [h1, h2]
    rfl

/-- Witness for C7: a failing engine initialization leaves a fresh processor
untouched. -/
theorem processor_setup_failure_unchanged_witness :
    AudioProcessor.new.setup (.error "no model") (.ok ())
      = (.error (.ModelLoadFailed ("Swift transcriber init failed: " ++ "no model")),
         AudioProcessor.new) :=
  (processor_setup_failure_unchanged AudioProcessor.new (.error "no model") (.ok ())).1
    "no model" rfl

/-! ### TypingQueue worker
From `src/app/src/output.rs`. -/

/-- Models `TypingCommand` (output.rs lines 16-20). -/
inductive TypingCommand where
  | type (op_id : ℕ) (text : String) (add_space : Bool)
  | shutdown
deriving DecidableEq

/-- Observable outcome of one `type_with_retry` call: the returned Bool, how
many typing attempts were made, and the sleep durations (in milliseconds, in
order) between attempts. -/
structure RetryResult where
  success : Bool
  attempts : ℕ
  sleeps : List ℕ
deriving DecidableEq

/-- Models `MAX_RETRIES` (output.rs line 102). -/
def MAX_RETRIES : ℕ := 2

/-- One pass of the `for attempt in 0..=MAX_RETRIES` loop of
`type_with_retry` (output.rs lines 104-133), starting at index `attempt` with
`remaining` iterations left. `textEmpty` is whether `text` is empty (an empty
text returns success right after the optional leading space, line 124-127);
`textOk n` is whether the `enigo.text(text)` call of attempt `n` succeeds.
After a failed attempt with iterations still left, the worker sleeps
`10 << attempt` milliseconds (line 130-132). The leading-space injection's
failure is logged and ignored (lines 107-111), so it does not influence the
result. -/
def retryLoop (textEmpty : Bool) (textOk : ℕ → Bool) : ℕ → ℕ → RetryResult
  | _, 0 => { success := false, attempts := 0, sleeps := [] }
  | attempt, remaining + 1 =>
      if textEmpty then { success := true, attempts := 1, sleeps := [] }
      else if textOk attempt then { success := true, attempts := 1, sleeps := [] }
      else
        let rest := retryLoop textEmpty textOk (attempt + 1) remaining
        if remaining = 0 then
          { success := rest.success, attempts := rest.attempts + 1,
            sleeps := rest.sleeps }
        else
          { success := rest.success, attempts := rest.attempts + 1,
            sleeps := 10 * 2 ^ attempt :: rest.sleeps }

/-- Models `TypingQueue::type_with_retry` (output.rs lines 101-136): the loop run
from attempt 0 with `MAX_RETRIES + 1` iterations. -/
def type_with_retry (textEmpty : Bool) (textOk : ℕ → Bool) : RetryResult :=
  retryLoop textEmpty textOk 0 (MAX_RETRIES + 1)

/-- Counterexample to C4 as stated: with a nonempty text whose injection
always fails, the worker sleeps 10ms and then 20ms between its three
attempts; there is no 40ms sleep (no sleep follows the final attempt), so the
claimed backoff sequence 10ms, 20ms, 40ms does not occur. -/
theorem type_with_retry_sleeps_counterexample :
    (type_with_retry false (fun _ => false)).sleeps = [10, 20] ∧
    (type_with_retry false (fun _ => false)).sleeps ≠ [10, 20, 40] := by
  constructor <;> decide

/-- C4 (amended): for every text-injection command with nonempty text whose
injection attempt always fails, `type_with_retry` performs exactly 3 attempts
in total (1 initial + 2 retries), sleeping with exponential backoff 10ms then
20ms between consecutive attempts (no sleep follows the final attempt, so the
formula's 40ms value is never used), and then gives up returning failure. -/
theorem type_with_retry_always_fail (textOk : ℕ → Bool)
    (h : ∀ n, textOk n = false) :
    type_with_retry false textOk
      = { success := false, attempts := 3, sleeps := [10, 20] } := by
  simp [type_with_retry, MAX_RETRIES, retryLoop, h]

/-- Witness for C4 (amended) at the constantly failing injector. -/
theorem type_with_retry_always_fail_witness :
    type_with_retry false (fun _ => false)
      = { success := false, attempts := 3, sleeps := [10, 20] } :=
  type_with_retry_always_fail (fun _ => false) (fun _ => rfl)

/-- Models `TypingQueue::queue_typing` (output.rs lines 138-165), worker-thread mode:
empty text with no leading space returns `Ok` immediately, enqueuing nothing;
otherwise a `Type` command carrying the next operation id is sent to the
worker, failing with `WindowOperationFailed` if the worker has disconnected
(`connected` models the send outcome). -/
def queue_typing (text : String) (add_space : Bool) (nextOpId : ℕ)
    (connected : Bool) (queue : List TypingCommand) :
    Except VoicyError (List TypingCommand) :=
  if text.isEmpty ∧ ¬ add_space then .ok queue
  else if connected then .ok (queue ++ [TypingCommand.type nextOpId text add_space])
  else .error (.WindowOperationFailed "Typing worker disconnected")

/-- C9: `queue_typing` with empty text and `add_space = false` is a no-op:
nothing is enqueued to the worker and the call returns `Ok` immediately,
whatever the queue contents or worker-channel status. -/
theorem queue_typing_empty_noop (nextOpId : ℕ) (connected : Bool)
    (queue : List TypingCommand) :
    queue_typing "" false nextOpId connected queue = .ok queue := by
  rw [queue_typing, if_pos ⟨rfl, Bool.false_ne_true⟩]

end Typeswift
